import Mathlib

/-!
Verification of the semantic retrieval pipeline of the chess-agent
repository: PGN extraction, chunking, embedding, flat L2 vector index,
index store and the search service.  Definitions are shallow embeddings
of src/tasks/create_index.py and src/utils/query.py; the load half of the
index store (utils/embeddings_util.py) is not part of the sources and is
modelled from the specification where noted.  Floating point vector
components and distances are modelled as exact integers, and the
environment-supplied capabilities (OpenAI embeddings, SentenceTransformer
encoding, chat completions, file decoding, PGN game parsing) are explicit
functional parameters.
-/

/-! ## Text utilities -/

/-- Helper for pySplit: scans the character list, accumulating the current
word (in reverse) in acc, exactly like the whitespace splitter of the
Python str.split() method with no separator argument. -/
def splitWsAux : List Char → List Char → List String
  | [], [] => []
  | [], acc => [String.mk acc.reverse]
  | c :: cs, acc =>
    if c.isWhitespace then
      (if acc.isEmpty then splitWsAux cs [] else String.mk acc.reverse :: splitWsAux cs [])
    else splitWsAux cs (c :: acc)

/-- Python str.split() with no argument: split on runs of whitespace and
drop empty pieces.  (Exotic unicode whitespace beyond space, tab, CR and
LF is not modelled.) -/
def pySplit (s : String) : List String := splitWsAux s.data []

/-- Python str.join with a single-space separator. -/
def joinSpace (l : List String) : String := String.intercalate " " l

/-- Whitespace normalization used by chunk_documents in
src/tasks/create_index.py line 125: chunk_normalized = join of split,
collapsing all whitespace runs to single spaces. -/
def normalizeWs (s : String) : String := joinSpace (pySplit s)

/-- Python str.strip(): remove leading and trailing whitespace. -/
def pyStrip (s : String) : String :=
  String.mk (((s.data.dropWhile Char.isWhitespace).reverse.dropWhile Char.isWhitespace).reverse)

/-! ## Data model -/

/-- A GameRecord or Chunk as built by src/tasks/create_index.py: a dict
with a description field and a source field. -/
structure Doc where
  description : String
  source : String
deriving DecidableEq, Repr

/-- Vector components and distances: the float32 values of the Python
code are modelled as exact integers (the claims under verification do
not depend on fractional coordinates, only on equality, order and
provenance of the vectors). -/
abbrev Vec := List Int

/-- Decidable equality for Except values, used to evaluate concrete
pipeline runs in witnesses and counterexamples. -/
instance {ε α : Type} [DecidableEq ε] [DecidableEq α] : DecidableEq (Except ε α) := fun x y =>
  match x, y with
  | Except.error a, Except.error b =>
    if h : a = b then isTrue (by rw [h]) else isFalse (by simp [h])
  | Except.ok a, Except.ok b =>
    if h : a = b then isTrue (by rw [h]) else isFalse (by simp [h])
  | Except.error _, Except.ok _ => isFalse (by simp)
  | Except.ok _, Except.error _ => isFalse (by simp)

/-! ## Chunker (src/tasks/create_index.py lines 19 to 43 and 116 to 133) -/

def EMBEDDING_MODEL : String := "text-embedding-3-large"

def MAX_TOKENS_PER_CHUNK : Nat := 6000

/- WORDS_PER_TOKEN = 0.75 in the source.  The test
total_words / 0.75 <= 6000 is float arithmetic, but 0.75 is an exact
dyadic rational and for every integer w the comparison agrees with the
exact rational comparison w * 4 <= 6000 * 3 (the only boundary value,
4500 / 0.75 = 6000, is computed exactly), so the condition is embedded
as the integer inequality below. -/

def CHUNK_SIZE : Nat := 3000

def OVERLAP : Nat := 100

/-- Python range(0, stop, step) for positive step: the start positions
0, step, 2 * step, ... strictly below stop. -/
def pyRange0 (stop step : Nat) : List Nat :=
  (List.range ((stop + step - 1) / step)).map (fun j => j * step)

/-- The word windows of the chunking loop of chunk_text: for each start
position i produced by range(0, len(words), chunk_size - overlap) the
slice words[i : i + chunk_size]. -/
def chunkWordWindows (words : List String) : List (List String) :=
  (pyRange0 words.length (CHUNK_SIZE - OVERLAP)).map (fun i => (words.drop i).take CHUNK_SIZE)

/-- chunk_text of src/tasks/create_index.py lines 24 to 43: if the token
estimate total_words / 0.75 is at most MAX_TOKENS_PER_CHUNK the text is
returned unchanged as a single chunk, otherwise the word windows are
rejoined with single spaces. -/
def chunk_text (text : String) : List String :=
  let words := pySplit text
  let total_words := words.length
  if total_words * 4 ≤ MAX_TOKENS_PER_CHUNK * 3 then [text]
  else (chunkWordWindows words).map joinSpace

/-- The stream of chunks produced by the two nested loops of
chunk_documents before deduplication: for each document in order, the
chunks of its description in order, each keeping the source of its
document. -/
def flattenChunks (documents : List Doc) : List Doc :=
  documents.flatMap (fun d => (chunk_text d.description).map (fun t => Doc.mk t d.source))

/-- The seen-set filter of chunk_documents: keep a chunk only if its
whitespace-normalized text has not occurred before; the set only grows,
and it is threaded through documents and chunks in stream order. -/
def dedupAux : List Doc → List String → List Doc
  | [], _ => []
  | c :: cs, seen =>
    if normalizeWs c.description ∈ seen then dedupAux cs seen
    else c :: dedupAux cs (normalizeWs c.description :: seen)

/-- chunk_documents of src/tasks/create_index.py lines 116 to 133.  The
two nested Python loops with the growing seen_chunks set are linearized
into the flattened chunk stream filtered by the seen set, which visits
chunks in exactly the same order with the same set contents. -/
def chunk_documents (documents : List Doc) : List Doc :=
  dedupAux (flattenChunks documents) []

/-! ## Record extractor (src/tasks/create_index.py lines 45 to 114) -/

/-- The result of chess.pgn.read_game on one game block: the header
key-value pairs and the mainline moves in UCI notation.  The chess
library is external; it is a parameter of the extractor, with None (or a
caught parse exception, which the source also skips) modelled as none. -/
structure ParsedGame where
  headers : List (String × String)
  moves : List String
deriving DecidableEq, Repr

/-- Python headers.get(key, Unknown) over the header dict. -/
def headerGet (hs : List (String × String)) (k : String) : String :=
  ((hs.find? (fun p => p.1 == k)).map (fun p => p.2)).getD "Unknown"

/-- The description f-string of src/tasks/create_index.py lines 84 to 93,
combining the header fields and the space-joined UCI moves. -/
def buildDescription (g : ParsedGame) : String :=
  "Event: " ++ headerGet g.headers "Event"
    ++ " Site: " ++ headerGet g.headers "Site"
    ++ " Date: " ++ headerGet g.headers "Date"
    ++ " White: " ++ headerGet g.headers "White"
    ++ " Black: " ++ headerGet g.headers "Black"
    ++ " Result: " ++ headerGet g.headers "Result"
    ++ " ECO: " ++ headerGet g.headers "ECO"
    ++ " Moves: " ++ joinSpace g.moves

/-- Splitter for the record boundary marker: the character-level version
of the Python split on the three-character separator of newline, newline,
opening bracket, consuming leftmost non-overlapping occurrences, with the
current piece accumulated in reverse. -/
def splitMarker : List Char → List Char → List (List Char)
  | '\n' :: '\n' :: '[' :: rest, acc => acc.reverse :: splitMarker rest []
  | c :: cs, acc => splitMarker cs (c :: acc)
  | [], acc => [acc.reverse]

/-- Python content.split of src/tasks/create_index.py line 57 at the
record boundary marker. -/
def pySplitOnMarker (s : String) : List String :=
  (splitMarker s.data []).map String.mk

/-- Python game.startswith at the opening bracket character,
src/tasks/create_index.py line 69. -/
def pyStartsWithBracket (s : String) : Bool :=
  match s.data with
  | '[' :: _ => true
  | _ => false

/-- The per-file game loop of load_pgn_files on decoded content: split on
the record boundary marker, skip blocks that strip to empty, restore the
leading bracket, parse, and keep one Doc per successfully parsed game
(parse failures and None results are skipped and extraction continues). -/
def processContent (parseGame : String → Option ParsedGame) (fileName content : String) : List Doc :=
  ((pySplitOnMarker content).filter (fun g => pyStrip g ≠ "")).filterMap (fun g =>
    let g := if pyStartsWithBracket g then g else "[" ++ g
    (parseGame g).map (fun pg => Doc.mk (buildDescription pg) fileName))

/-- An archive file: its base name and, for each encoding name, the
outcome of open(file, encoding
 = e).read() — some decoded text, or none
for a UnicodeDecodeError.  The byte content and the codecs themselves
are external, so the decode outcomes are the model of the file. -/
structure PgnFile where
  name : String
  decoded : String → Option String

/-- The encoding priority list of src/tasks/create_index.py line 53. -/
def ENCODINGS : List String := ["utf-8", "latin-1", "iso-8859-1", "cp1252"]

/-- The encoding fallback loop: try each encoding in order, return the
first successfully decoded content, or none when every encoding fails
(after which the source logs the failure and moves to the next file). -/
def tryEncodings (f : PgnFile) : List String → Option String
  | [] => none
  | e :: es =>
    match f.decoded e with
    | some c => some c
    | none => tryEncodings f es

/-- load_pgn_files of src/tasks/create_index.py lines 45 to 114: every
file contributes the games of its first successfully decoded reading, or
nothing when all encodings fail; later files are processed regardless. -/
def load_pgn_files (parseGame : String → Option ParsedGame) (files : List PgnFile) : List Doc :=
  files.flatMap (fun f =>
    match tryEncodings f ENCODINGS with
    | some content => processContent parseGame f.name content
    | none => [])

/-! ## Embedder (src/tasks/create_index.py lines 135 to 149) -/

/-- create_embeddings: one call to the OpenAI embedding endpoint per
document, with the module-level EMBEDDING_MODEL, appending one vector
per document in order.  There is no try/except: the first failing call
aborts the whole batch, which the Except propagation models. -/
def create_embeddings (embed : String → String → Except String Vec) : List Doc → Except String (List Vec)
  | [] => Except.ok []
  | d :: ds =>
    match embed EMBEDDING_MODEL d.description with
    | Except.error e => Except.error e
    | Except.ok v =>
      match create_embeddings embed ds with
      | Except.error e => Except.error e
      | Except.ok vs => Except.ok (v :: vs)

/-! ## Vector index (FAISS IndexFlatL2)

The index is the external faiss library; src/tasks/create_index.py
line 151 builds an IndexFlatL2 holding the embedding matrix and
src/utils/query.py line 81 queries it.  The model below follows the
documented faiss flat-index semantics: exhaustive search ranked by
ascending squared L2 distance with ties broken by insertion order, and,
when k exceeds the number of stored vectors, the result padded to
exactly k entries with the sentinel label -1 and the maximal float
distance. -/

/-- Squared Euclidean distance of two vectors (componentwise over the
shared length, as the faiss flat index computes it for vectors of the
index dimension). -/
def sqDist (a b : Vec) : Int :=
  ((a.zip b).map (fun p => (p.1 - p.2) * (p.1 - p.2))).sum

/-- FLT_MAX, the sentinel distance left in padded result slots of a
faiss search with k larger than the number of stored vectors. -/
def padDist : Int := 340282346638528859811704183484516925440

/-- A flat faiss index: the stored vectors in insertion order. -/
structure FaissIndex where
  vecs : List Vec
deriving DecidableEq, Repr

/-- create_faiss_index of src/tasks/create_index.py lines 151 to 155:
IndexFlatL2 of the embedding dimension with all vectors added in order. -/
def create_faiss_index (embeddings : List Vec) : FaissIndex :=
  FaissIndex.mk embeddings

/-- Ranking order of faiss flat search results: ascending distance, ties
broken by insertion position. -/
def rankLe (a b : Int × Int) : Prop :=
  a.1 < b.1 ∨ (a.1 = b.1 ∧ a.2 ≤ b.2)

instance : DecidableRel rankLe := fun a b => by
  unfold rankLe
  infer_instance

instance : IsTotal (Int × Int) rankLe := by
  constructor
  intro a b
  unfold rankLe
  omega

instance : IsTrans (Int × Int) rankLe := by
  constructor
  intro a b c
  unfold rankLe
  omega

/-- The (distance, label) pairs of index.search(q, k) for one query
vector: all stored vectors scored and ranked, the best k kept, and the
result padded to exactly k entries with (FLT_MAX, -1) when fewer than k
vectors are stored. -/
def faissSearch (idx : FaissIndex) (q : Vec) (k : Nat) : List (Int × Int) :=
  let scored := idx.vecs.enum.map (fun p => (sqDist q p.2, (p.1 : Int)))
  let ranked := (List.insertionSort rankLe scored).take k
  ranked ++ List.replicate (k - ranked.length) (padDist, -1)

/-! ## Index store (src/tasks/create_index.py lines 157 to 204) -/

/-- The manifest record written by save_metadata, including the
dataset_id field equal to the index_id.  The three artifact file paths
recorded in the manifest are derived deterministically from index_id, so
they are represented by the index_id key itself. -/
structure Manifest where
  dataset_id : String
  embedding_model : String
  index_id : String
  creation_date : String
deriving DecidableEq, Repr

/-- The artifact triple stored under one index_id: the embeddings
pickle, the faiss index file and the processed documents pickle. -/
structure Bundle where
  embeddings : List Vec
  index : FaissIndex
  documents : List Doc
deriving DecidableEq, Repr

/-- The embeddings directory: artifact triples keyed by index_id, plus
the discoverable manifest files. -/
structure Store where
  bundles : List (String × Bundle)
  manifests : List Manifest
deriving DecidableEq, Repr

/-- save_metadata of src/tasks/create_index.py lines 157 to 176: write
one manifest json with dataset_id = index_id and the artifact paths. -/
def save_metadata (store : Store) (embedding_model index_id date : String) : Store :=
  Store.mk store.bundles (Manifest.mk index_id embedding_model index_id date :: store.manifests)

/-- save_embeddings_and_index of src/tasks/create_index.py lines 178 to
204: under a fresh index_id (the uuid4 draw and the wall clock are
passed in as parameters), write the embeddings, the faiss index and the
processed documents, then the manifest, and return the index_id. -/
def save_embeddings_and_index (store : Store) (index_id date : String)
    (embeddings : List Vec) (index : FaissIndex) (processed_documents : List Doc)
    (embedding_model : String) : Store × String :=
  let store1 := Store.mk ((index_id, Bundle.mk embeddings index processed_documents) :: store.bundles) store.manifests
  (save_metadata store1 embedding_model index_id date, index_id)

/-- Modelled from the spec: load_all_metadata of the missing
utils/embeddings_util.py enumerates every persisted manifest found in
the store directory (order not semantically significant; callers select
by id or default to the first). -/
def load_all_metadata (store : Store) : List Manifest :=
  store.manifests

/-- Modelled from the spec: load_embeddings_and_index of the missing
utils/embeddings_util.py loads the tuple (vectors, index structure,
chunks, embedding model identifier) through the file paths recorded in
the manifest, and fails when the referenced artifacts are missing; the
embedding model identifier is the one recorded in the manifest. -/
def load_embeddings_and_index (store : Store) (m : Manifest) :
    Option (List Vec × FaissIndex × List Doc × String) :=
  match store.bundles.lookup m.index_id with
  | some b => some (b.embeddings, b.index, b.documents, m.embedding_model)
  | none => none

/-! ## Search service (src/utils/query.py lines 41 to 118) -/

/-- Python list indexing, including the negative-index convention: l[i]
is the element at i for 0 <= i < len, the element at len + i for
-len <= i < 0, and an IndexError (none) otherwise.  The labels returned
by a faiss search are applied to the processed documents list this way. -/
def pyIndex {α : Type} (l : List α) (i : Int) : Option α :=
  if 0 ≤ i then l[i.toNat]?
  else if 0 ≤ i + l.length then l[(i + l.length).toNat]?
  else none

/-- The environment of one search_games call: the persisted store, the
OPENAI_API_KEY environment variable, the two embedding capabilities of
the repository (the SentenceTransformer encode used at query time by
src/utils/query.py lines 77 to 78, and the OpenAI embeddings endpoint
used at build time by src/tasks/create_index.py lines 144 to 148), the
per-game chat-completion formatter and the final summary completion.
Capabilities return Except: an error is a raised Python exception. -/
structure Env where
  store : Store
  apiKeyEnv : Option String
  stEmbed : String → String → Except String Vec
  openaiEmbed : String → String → Except String Vec
  formatGame : Doc → Except String String
  summarize : String → String → Except String String

/-- What one search_games call produces when no exception escapes: an
early-return user-facing message, the ranked console report of the CLI
mode, or the synthesized conversational answer of the web mode.  A
console hit is (rank, distance, formatted game); the textual similarity
rendering of the Python format string is elided, the numeric distance is
kept. -/
inductive SearchOutcome where
  | message (s : String)
  | console (hits : List (Nat × Int × String))
  | answer (s : String)
deriving DecidableEq, Repr

/-- Manifest resolution of src/utils/query.py line 64: the first manifest
whose dataset_id equals the requested one, defaulting to the first
available manifest (a None request matches no manifest, and so does an
unknown id). -/
def resolveManifest (first : Manifest) (rest : List Manifest) (dataset_id : Option String) : Manifest :=
  (((first :: rest).find? (fun m => dataset_id == some m.dataset_id)).getD first)

/-- The result loop of src/utils/query.py lines 84 to 87: for each
(distance, label) pair in rank order, fetch the document at the label by
Python indexing and format it with the chat model; a missing document is
an IndexError and a formatter failure is a raised exception, either of
which aborts the loop and escapes search_games. -/
def formatResults (env : Env) (docs : List Doc) : List (Int × Int) → Nat → Except String (List (Nat × Int × String))
  | [], _ => Except.ok []
  | (dist, label) :: rest, rank =>
    match pyIndex docs label with
    | none => Except.error "IndexError: list index out of range"
    | some doc =>
      match env.formatGame doc with
      | Except.error e => Except.error e
      | Except.ok formatted =>
        match formatResults env docs rest (rank + 1) with
        | Except.error e => Except.error e
        | Except.ok rs => Except.ok ((rank, dist, formatted) :: rs)

/-- The combined results string passed to the web-mode summary prompt of
src/utils/query.py lines 97 to 107 (the numeric similarity rendering is
elided; the formatted games appear in rank order). -/
def combineResults (rs : List (Nat × Int × String)) : String :=
  String.intercalate "\n\n" (rs.map (fun r => r.2.2))

/-- search_games of src/utils/query.py lines 41 to 118.  clientProvided
is whether the caller passed an OpenAI client; when it did not, the
source builds one from OPENAI_API_KEY and returns a message for a falsy
key.  Then: resolve the manifest (empty store returns a message), load
the bundle (a failed load returns a message), encode the query with
SentenceTransformer(model_name) where model_name is the loaded
embedding-model identifier, run the faiss search with num_results, format
each hit with the chat model, and either report the hits (console mode)
or synthesize one conversational answer (web mode).  Errors of the
encode, format and summarize capabilities propagate as exceptions. -/
def search_games (env : Env) (query : String) (clientProvided : Bool) (num_results : Nat)
    (dataset_id : Option String) (return_str : Bool) : Except String SearchOutcome :=
  if ¬ clientProvided ∧ env.apiKeyEnv.getD "" = "" then
    Except.ok (SearchOutcome.message "Error: OPENAI_API_KEY environment variable not set")
  else
    match load_all_metadata env.store with
    | [] => Except.ok (SearchOutcome.message "No embeddings found. Please run create_index.py first.")
    | m0 :: rest =>
      match load_embeddings_and_index env.store (resolveManifest m0 rest dataset_id) with
      | none => Except.ok (SearchOutcome.message "Failed to load embeddings. Please check the embeddings directory.")
      | some (_embeddings, index, processed_documents, model_name) =>
        match env.stEmbed model_name query with
        | Except.error e => Except.error e
        | Except.ok query_embedding =>
          match formatResults env processed_documents
              (faissSearch index query_embedding num_results) 1 with
          | Except.error e => Except.error e
          | Except.ok results =>
            if ¬ return_str then Except.ok (SearchOutcome.console results)
            else
              match env.summarize (combineResults results) query with
              | Except.error e => Except.error e
              | Except.ok ans => Except.ok (SearchOutcome.answer ans)

/-! ## Build pipeline (src/tasks/create_index.py lines 206 to 239) -/

/-- The environment of one build run: the archive files, the external
PGN parser and the OpenAI embedding endpoint. -/
structure BuildEnv where
  files : List PgnFile
  parseGame : String → Option ParsedGame
  openaiEmbed : String → String → Except String Vec

/-- main of src/tasks/create_index.py lines 206 to 239, with the store
threaded explicitly: load the documents (returning early with no writes
when none were found), chunk with deduplication, embed (an embedding
failure is an uncaught exception: the run aborts and the store is
untouched, because every write happens after create_embeddings returns),
build the flat index, and persist the four artifacts under the fresh
index_id. -/
def mainBuild (env : BuildEnv) (store : Store) (index_id date : String) :
    Store × Except String (Option String) :=
  let documents := load_pgn_files env.parseGame env.files
  if documents.isEmpty then (store, Except.ok none)
  else
    let processed_documents := chunk_documents documents
    match create_embeddings env.openaiEmbed processed_documents with
    | Except.error e => (store, Except.error e)
    | Except.ok embeddings =>
      let faiss_index := create_faiss_index embeddings
      let saved := save_embeddings_and_index store index_id date embeddings faiss_index processed_documents EMBEDDING_MODEL
      (saved.1, Except.ok (some saved.2))

/-! ## Concrete fixtures for counterexamples and witnesses -/

/-- The empty embeddings directory. -/
def emptyStore : Store := Store.mk [] []

/-- Characters of n repetitions of space then the letter a. -/
def altChars : Nat → List Char
  | 0 => []
  | n + 1 => ' ' :: 'a' :: altChars n

/-- A description of exactly 5801 one-letter words: the smallest word
count above the chunking threshold at which the window count of the
source loop and the window count formula of the claim disagree. -/
def cexText : String := String.mk ('a' :: altChars 5800)

/-- Build-time embedding endpoint of the C1 scenario: every call returns
the vector [1]. -/
def c1Embed : String → String → Except String Vec := fun _ _ => Except.ok [1]

/-- Query-time SentenceTransformer encoding of the C1 scenario: the same
model identifier maps the same text to the different vector [2], as two
distinct embedding stacks are free to do. -/
def c1StEmbed : String → String → Except String Vec := fun _ _ => Except.ok [2]

def c1Docs : List Doc := [Doc.mk "queen sacrifice" "games.pgn"]

/-- A store holding exactly the bundle that mainBuild persists for
c1Docs: vectors from the OpenAI endpoint under EMBEDDING_MODEL, and the
manifest recording EMBEDDING_MODEL. -/
def c1Store : Store :=
  (save_embeddings_and_index emptyStore "id-1" "2024-01-01" [[1]] (create_faiss_index [[1]]) c1Docs EMBEDDING_MODEL).1

def c1Env : Env :=
  Env.mk c1Store (some "key") c1StEmbed c1Embed (fun d => Except.ok d.description) (fun c _ => Except.ok c)

def c3Docs : List Doc := [Doc.mk "only game" "g.pgn"]

def c3Store : Store :=
  (save_embeddings_and_index emptyStore "id-3" "2024-01-01" [[0]] (create_faiss_index [[0]]) c3Docs EMBEDDING_MODEL).1

def c3Env : Env :=
  Env.mk c3Store (some "key") (fun _ _ => Except.ok [0]) (fun _ _ => Except.ok [0])
    (fun d => Except.ok d.description) (fun c _ => Except.ok c)

def c3wStore : Store :=
  (save_embeddings_and_index emptyStore "id-3w" "2024-01-01" [[0]] (create_faiss_index [[0]]) [Doc.mk "g" "s"] EMBEDDING_MODEL).1

def c3wEnv : Env :=
  Env.mk c3wStore (some "key") (fun _ _ => Except.ok [0]) (fun _ _ => Except.ok [0])
    (fun d => Except.ok d.description) (fun c _ => Except.ok c)

def c4Docs : List Doc := [Doc.mk "aa" "s", Doc.mk "bbb" "s"]

def c4Embed : String → String → Except String Vec := fun _ t => Except.ok [(t.length : Int)]

def c5File : PgnFile :=
  PgnFile.mk "games.pgn" (fun e => if e = "utf-8" then some "[Event \"x\"]" else none)

def c5Env : BuildEnv :=
  BuildEnv.mk [c5File] (fun _ => some (ParsedGame.mk [("Event", "x")] [])) (fun _ _ => Except.error "rate limit")

def c7Docs : List Doc := [Doc.mk "a  b" "s1", Doc.mk "a b" "s2"]

def c8Store : Store :=
  (save_embeddings_and_index emptyStore "id-8" "2024-01-01" [[0]] (create_faiss_index [[0]]) [Doc.mk "g" "s"] EMBEDDING_MODEL).1

/-- Environment of the C8 counterexample: a loadable bundle, but the
query-time SentenceTransformer encoding raises. -/
def c8Env : Env :=
  Env.mk c8Store (some "key") (fun _ _ => Except.error "boom") (fun _ _ => Except.ok [0])
    (fun d => Except.ok d.description) (fun c _ => Except.ok c)

def c8wEnv : Env :=
  Env.mk emptyStore (some "key") (fun _ _ => Except.ok [0]) (fun _ _ => Except.ok [0])
    (fun d => Except.ok d.description) (fun c _ => Except.ok c)

def c9FileA : PgnFile :=
  PgnFile.mk "a.pgn" (fun e => if e = "latin-1" then some "[Result \"1-0\"]" else none)

def c9FileB : PgnFile := PgnFile.mk "b.pgn" (fun _ => none)

def c10Store : Store :=
  (save_embeddings_and_index emptyStore "id-10" "2024-01-01" [[0]] (create_faiss_index [[0]]) [Doc.mk "g" "s"] EMBEDDING_MODEL).1

def c10Env : Env :=
  Env.mk c10Store (some "key") (fun _ _ => Except.ok [0]) (fun _ _ => Except.ok [0])
    (fun d => Except.ok d.description) (fun c _ => Except.ok c)

/-! ## Chunker lemmas and claim C2 -/

theorem chunkWordWindows_length (ws : List String) :
    (chunkWordWindows ws).length = (ws.length + 2899) / 2900 := by
  simp [chunkWordWindows, pyRange0, CHUNK_SIZE, OVERLAP]

theorem chunkWordWindows_get (ws : List String) (j : Nat) (c : List String)
    (h : (chunkWordWindows ws)[j]? = some c) :
    c = (ws.drop (j * 2900)).take 3000 ∧ j < (ws.length + 2899) / 2900 := by
  have hl : j < (chunkWordWindows ws).length := by
    by_contra hj
    rw [List.getElem?_eq_none (by omega)] at h
    simp at h
  have hl2 : j < (ws.length + 2899) / 2900 := by
    rw [chunkWordWindows_length] at hl
    exact hl
  refine ⟨?_, hl2⟩
  have hr : (List.range ((ws.length + 2899) / 2900))[j]? = some j := by
    rw [List.getElem?_range hl2]
  rw [chunkWordWindows, pyRange0] at h
  have e1 : ws.length + (CHUNK_SIZE - OVERLAP) - 1 = ws.length + 2899 := by
    simp [CHUNK_SIZE, OVERLAP]
  have e2 : CHUNK_SIZE - OVERLAP = 2900 := by simp [CHUNK_SIZE, OVERLAP]
  rw [e1, e2, List.getElem?_map, List.getElem?_map, hr] at h
  simp [CHUNK_SIZE] at h
  exact h.symm

/-- Claim C2 (amended): for every description, if the word count w
satisfies w / 0.75 <= 6000 then chunk_text returns exactly one chunk
equal to the original text; otherwise it returns exactly
ceil(w / 2900) windows (not ceil((w - 3000) / 2900) + 1: the source loop
emits one window per start position of range(0, w, 2900)), each of at
most 3000 words, with each adjacent pair of windows sharing exactly the
last 100 words of the former as the opening words of the latter, except
possibly the pair ending at the final window, whose shared segment is
the final window itself when that window is shorter than 100 words. -/
theorem chunkText_chunks (text : String) :
    ((pySplit text).length * 4 ≤ MAX_TOKENS_PER_CHUNK * 3 → chunk_text text = [text])
    ∧ (¬ ((pySplit text).length * 4 ≤ MAX_TOKENS_PER_CHUNK * 3) →
        chunk_text text = (chunkWordWindows (pySplit text)).map joinSpace
        ∧ (chunk_text text).length = ((pySplit text).length + 2899) / 2900
        ∧ (∀ c ∈ chunkWordWindows (pySplit text), c.length ≤ CHUNK_SIZE)
        ∧ (∀ j cj ck, (chunkWordWindows (pySplit text))[j]? = some cj →
            (chunkWordWindows (pySplit text))[j + 1]? = some ck →
            cj.drop (CHUNK_SIZE - OVERLAP) = ck.take OVERLAP)
        ∧ (∀ j cj ck, (chunkWordWindows (pySplit text))[j]? = some cj →
            (chunkWordWindows (pySplit text))[j + 2]? = some ck →
            (cj.drop (CHUNK_SIZE - OVERLAP)).length = OVERLAP)) := by
  have hct : chunk_text text
      = if (pySplit text).length * 4 ≤ MAX_TOKENS_PER_CHUNK * 3 then [text]
        else (chunkWordWindows (pySplit text)).map joinSpace := rfl
  constructor
  · intro h
    rw [hct, if_pos h]
  · intro h
    have hbr : chunk_text text = (chunkWordWindows (pySplit text)).map joinSpace := by
      rw [hct, if_neg h]
    refine ⟨hbr, ?_, ?_, ?_, ?_⟩
    · rw [hbr, List.length_map, chunkWordWindows_length]
    · intro c hc
      rw [chunkWordWindows] at hc
      obtain ⟨i, _, rfl⟩ := List.mem_map.1 hc
      simp [CHUNK_SIZE]
    · intro j cj ck hj hk
      obtain ⟨rfl, _⟩ := chunkWordWindows_get _ _ _ hj
      obtain ⟨rfl, _⟩ := chunkWordWindows_get _ _ _ hk
      have e2 : CHUNK_SIZE - OVERLAP = 2900 := by simp [CHUNK_SIZE, OVERLAP]
      rw [e2, List.drop_take, List.drop_drop, List.take_take]
      have e3 : (j + 1) * 2900 = j * 2900 + 2900 := by ring
      rw [e3]
      norm_num [OVERLAP]
    · intro j cj ck hj hk
      obtain ⟨rfl, _⟩ := chunkWordWindows_get _ _ _ hj
      obtain ⟨_, hklt⟩ := chunkWordWindows_get _ _ _ hk
      have h29 : (j + 3) * 2900 ≤ (pySplit text).length + 2899 :=
        (Nat.le_div_iff_mul_le (by norm_num)).1 (by omega)
      have e2 : CHUNK_SIZE - OVERLAP = 2900 := by simp [CHUNK_SIZE, OVERLAP]
      rw [e2, List.drop_take, List.drop_drop]
      simp only [List.length_take, List.length_drop, OVERLAP]
      omega

/-- Witness for claim C2 at a small concrete description below the
chunking threshold. -/
theorem chunkText_chunks_witness : chunk_text "a b" = ["a b"] :=
  (chunkText_chunks "a b").1 (by decide)

theorem splitWsAux_altChars (n : Nat) :
    ∀ acc : List Char, acc.isEmpty = false →
      splitWsAux (altChars n) acc = String.mk acc.reverse :: List.replicate n "a" := by
  induction n with
  | zero =>
    intro acc h
    cases acc with
    | nil => simp at h
    | cons c cs => simp [altChars, splitWsAux]
  | succ n ih =>
    intro acc h
    cases acc with
    | nil => simp at h
    | cons c cs =>
      have h1 : splitWsAux (altChars (n + 1)) (c :: cs)
          = String.mk (c :: cs).reverse :: splitWsAux (altChars n) ['a'] := rfl
      rw [h1, ih ['a'] rfl]
      rfl

theorem pySplit_mk_altChars (n : Nat) :
    pySplit (String.mk ('a' :: altChars n)) = List.replicate (n + 1) "a" := by
  have h0 : pySplit (String.mk ('a' :: altChars n)) = splitWsAux (altChars n) ['a'] := rfl
  rw [h0, splitWsAux_altChars n ['a'] rfl]
  rfl

theorem pySplit_cexText : pySplit cexText = List.replicate 5801 "a" :=
  pySplit_mk_altChars 5800

/-- Counterexample to claim C2 as stated: a description of 5801 words is
above the chunking threshold, the formula of the claim predicts
ceil((5801 - 3000) / 2900) + 1 = 2 windows, but chunk_text emits one
window per start position of range(0, 5801, 2900), which is 3 windows
(the last starting at word 5800). -/
theorem chunkText_count_counterexample :
    (pySplit cexText).length = 5801
    ∧ ¬ (5801 * 4 ≤ MAX_TOKENS_PER_CHUNK * 3)
    ∧ (chunk_text cexText).length = 3
    ∧ (5801 - 3000 + 2899) / 2900 + 1 = 2
    ∧ (3 : Nat) ≠ 2 := by
  have hs := pySplit_cexText
  have hlen : (pySplit cexText).length = 5801 := by rw [hs, List.length_replicate]
  have hct : chunk_text cexText
      = if (pySplit cexText).length * 4 ≤ MAX_TOKENS_PER_CHUNK * 3 then [cexText]
        else (chunkWordWindows (pySplit cexText)).map joinSpace := rfl
  refine ⟨hlen, by decide, ?_, by decide, by decide⟩
  rw [hct, if_neg (by rw [hlen]; decide), List.length_map, chunkWordWindows_length, hlen]

/-! ## Deduplication lemmas and claim C7 -/

theorem dedupAux_sublist (l : List Doc) : ∀ seen, (dedupAux l seen).Sublist l := by
  induction l with
  | nil => intro seen; simp [dedupAux]
  | cons c cs ih =>
    intro seen
    rw [dedupAux]
    split
    · exact (ih seen).trans (List.sublist_cons_self c cs)
    · exact (ih _).cons₂ c

theorem dedupAux_not_seen (l : List Doc) :
    ∀ seen c, c ∈ dedupAux l seen → normalizeWs c.description ∉ seen := by
  induction l with
  | nil => intro seen c h; simp [dedupAux] at h
  | cons x xs ih =>
    intro seen c h
    rw [dedupAux] at h
    by_cases hx : normalizeWs x.description ∈ seen
    · rw [if_pos hx] at h
      exact ih seen c h
    · rw [if_neg hx] at h
      rcases List.mem_cons.1 h with rfl | h2
      · exact hx
      · have h3 := ih _ c h2
        simp only [List.mem_cons] at h3
        push_neg at h3
        exact h3.2

theorem dedupAux_pairwise (l : List Doc) : ∀ seen,
    (dedupAux l seen).Pairwise (fun a b => normalizeWs a.description ≠ normalizeWs b.description) := by
  induction l with
  | nil => intro seen; simp [dedupAux]
  | cons x xs ih =>
    intro seen
    rw [dedupAux]
    split
    · exact ih seen
    · refine List.Pairwise.cons ?_ (ih _)
      intro b hb
      have h3 := dedupAux_not_seen xs _ b hb
      simp only [List.mem_cons] at h3
      push_neg at h3
      exact fun he => h3.1 he.symm

theorem dedupAux_find (l : List Doc) : ∀ seen c, c ∈ dedupAux l seen →
    l.find? (fun x => normalizeWs x.description == normalizeWs c.description) = some c := by
  induction l with
  | nil => intro seen c h; simp [dedupAux] at h
  | cons x xs ih =>
    intro seen c h
    rw [dedupAux] at h
    by_cases hx : normalizeWs x.description ∈ seen
    · rw [if_pos hx] at h
      have hc := dedupAux_not_seen xs seen c h
      rw [List.find?_cons_of_neg _ (by rw [beq_iff_eq]; exact fun he => hc (he ▸ hx))]
      exact ih seen c h
    · rw [if_neg hx] at h
      rcases List.mem_cons.1 h with rfl | h2
      · rw [List.find?_cons_of_pos _ (by simp)]
      · have hc := dedupAux_not_seen xs _ c h2
        simp only [List.mem_cons] at hc
        push_neg at hc
        rw [List.find?_cons_of_neg _ (by rw [beq_iff_eq]; exact fun he => hc.1 he.symm)]
        exact ih _ c h2

theorem dedupAux_covers (l : List Doc) : ∀ seen x, x ∈ l →
    normalizeWs x.description ∈ seen
    ∨ ∃ c ∈ dedupAux l seen, normalizeWs c.description = normalizeWs x.description := by
  induction l with
  | nil => intro seen x hx; simp at hx
  | cons y ys ih =>
    intro seen x hx
    rw [dedupAux]
    by_cases hy : normalizeWs y.description ∈ seen
    · rw [if_pos hy]
      rcases List.mem_cons.1 hx with rfl | h2
      · exact Or.inl hy
      · exact ih seen x h2
    · rw [if_neg hy]
      rcases List.mem_cons.1 hx with rfl | h2
      · exact Or.inr ⟨x, List.mem_cons_self x _, rfl⟩
      · rcases ih (normalizeWs y.description :: seen) x h2 with h3 | ⟨c, hc, he⟩
        · rcases List.mem_cons.1 h3 with heq | hin
          · exact Or.inr ⟨y, List.mem_cons_self y _, heq.symm⟩
          · exact Or.inl hin
        · exact Or.inr ⟨c, List.mem_cons_of_mem _ hc, he⟩

/-- Claim C7: after chunk_documents processes a batch, no two output
chunks have identical whitespace-normalized text; the output is a
sublist of the flattened chunk stream (surviving chunks keep their
relative input order); every output chunk is exactly the first chunk of
the stream carrying its normalized form; and every normalized form of
the stream survives in some output chunk. -/
theorem chunk_documents_dedup (documents : List Doc) :
    (chunk_documents documents).Pairwise
      (fun a b => normalizeWs a.description ≠ normalizeWs b.description)
    ∧ (chunk_documents documents).Sublist (flattenChunks documents)
    ∧ (∀ c ∈ chunk_documents documents,
        (flattenChunks documents).find?
          (fun x => normalizeWs x.description == normalizeWs c.description) = some c)
    ∧ (∀ x ∈ flattenChunks documents, ∃ c ∈ chunk_documents documents,
        normalizeWs c.description = normalizeWs x.description) :=
  ⟨dedupAux_pairwise _ [], dedupAux_sublist _ [],
   fun c hc => dedupAux_find _ [] c hc,
   fun x hx => (dedupAux_covers _ [] x hx).resolve_left (by simp)⟩

/-- Witness for claim C7 on a two-record batch whose descriptions differ
only in whitespace: the first occurrence is kept. -/
theorem chunk_documents_dedup_witness :
    (chunk_documents c7Docs).Pairwise
      (fun a b => normalizeWs a.description ≠ normalizeWs b.description)
    ∧ (flattenChunks c7Docs).find?
        (fun x => normalizeWs x.description == normalizeWs (Doc.mk "a  b" "s1").description)
        = some (Doc.mk "a  b" "s1") :=
  ⟨(chunk_documents_dedup c7Docs).1,
   (chunk_documents_dedup c7Docs).2.2.1 (Doc.mk "a  b" "s1") (by decide)⟩

/-! ## Embedder alignment, claim C4 -/

theorem create_embeddings_ok (embed : String → String → Except String Vec) :
    ∀ (docs : List Doc) (vs : List Vec), create_embeddings embed docs = Except.ok vs →
      vs.length = docs.length
      ∧ ∀ i, i < docs.length → ∃ d v, docs[i]? = some d ∧ vs[i]? = some v
          ∧ embed EMBEDDING_MODEL d.description = Except.ok v := by
  intro docs
  induction docs with
  | nil =>
    intro vs h
    rw [create_embeddings] at h
    cases h
    exact ⟨rfl, fun i hi => by simp at hi⟩
  | cons d ds ih =>
    intro vs h
    rw [create_embeddings] at h
    cases he : embed EMBEDDING_MODEL d.description with
    | error e => rw [he] at h; simp at h
    | ok v =>
      rw [he] at h
      cases hr : create_embeddings embed ds with
      | error e => rw [hr] at h; simp at h
      | ok vs2 =>
        rw [hr] at h
        cases h
        obtain ⟨hlen, hpt⟩ := ih vs2 hr
        refine ⟨by simp [hlen], ?_⟩
        intro i hi
        cases i with
        | zero => exact ⟨d, v, by simp, by simp, he⟩
        | succ n =>
          obtain ⟨d2, v2, h1, h2, h3⟩ := hpt n (by simpa using hi)
          exact ⟨d2, v2, by simpa using h1, by simpa using h2, h3⟩

/-- Claim C4: when create_embeddings succeeds it returns exactly one
vector per input chunk in the same order, the vector at each position
being the embedding of the chunk at that position, and
save_embeddings_and_index persists exactly those two lists unchanged in
the bundle stored under the fresh index_id. -/
theorem create_embeddings_alignment (embed : String → String → Except String Vec)
    (docs : List Doc) (vs : List Vec) (h : create_embeddings embed docs = Except.ok vs) :
    vs.length = docs.length
    ∧ (∀ i, i < docs.length → ∃ d v, docs[i]? = some d ∧ vs[i]? = some v
        ∧ embed EMBEDDING_MODEL d.description = Except.ok v)
    ∧ (∀ store index_id date index em,
        ((save_embeddings_and_index store index_id date vs index docs em).1.bundles.lookup index_id)
          = some (Bundle.mk vs index docs)) := by
  obtain ⟨h1, h2⟩ := create_embeddings_ok embed docs vs h
  refine ⟨h1, h2, ?_⟩
  intro store index_id date index em
  simp [save_embeddings_and_index, save_metadata, List.lookup]

/-- Witness for claim C4 at a concrete two-chunk batch. -/
theorem create_embeddings_alignment_witness :
    create_embeddings c4Embed c4Docs = Except.ok [[2], [3]]
    ∧ ([[2], [3]] : List Vec).length = c4Docs.length := by
  have h : create_embeddings c4Embed c4Docs = Except.ok [[2], [3]] := by decide
  exact ⟨h, (create_embeddings_alignment c4Embed c4Docs [[2], [3]] h).1⟩

/-! ## Build abort on embedding failure, claim C5 -/

/-- Claim C5: if any embedding call fails during the build, the batch
aborts with that error and the store is untouched: no vectors, index,
chunk or manifest artifact of the run is persisted. -/
theorem build_aborts_on_embed_failure (env : BuildEnv) (store : Store) (index_id date e : String)
    (h : create_embeddings env.openaiEmbed (chunk_documents (load_pgn_files env.parseGame env.files))
          = Except.error e) :
    mainBuild env store index_id date = (store, Except.error e) := by
  have hne : (load_pgn_files env.parseGame env.files).isEmpty = false := by
    cases hl : load_pgn_files env.parseGame env.files with
    | nil =>
      rw [hl] at h
      simp [chunk_documents, flattenChunks, dedupAux, create_embeddings] at h
    | cons a as => rfl
  simp only [mainBuild, hne, Bool.false_eq_true, if_false, h]

/-- Witness for claim C5: a one-file one-game archive whose embedding
endpoint fails leaves the store exactly empty. -/
theorem build_aborts_on_embed_failure_witness :
    create_embeddings c5Env.openaiEmbed
        (chunk_documents (load_pgn_files c5Env.parseGame c5Env.files))
      = Except.error "rate limit"
    ∧ mainBuild c5Env emptyStore "id-5" "2024-01-01" = (emptyStore, Except.error "rate limit") := by
  have h : create_embeddings c5Env.openaiEmbed
      (chunk_documents (load_pgn_files c5Env.parseGame c5Env.files)) = Except.error "rate limit" := by
    decide
  exact ⟨h, build_aborts_on_embed_failure c5Env emptyStore "id-5" "2024-01-01" "rate limit" h⟩

/-! ## Store round trip, claim C6 -/

/-- Claim C6: saving vectors, index structure, chunks and model
identifier and loading the bundle back through the manifest written for
it returns values equal to the inputs, orders preserved, and the
returned handle is the index_id under which the artifacts were filed. -/
theorem save_load_roundtrip (store : Store) (index_id date embedding_model : String)
    (embeddings : List Vec) (index : FaissIndex) (processed_documents : List Doc) :
    (save_embeddings_and_index store index_id date embeddings index processed_documents embedding_model).2 = index_id
    ∧ Manifest.mk index_id embedding_model index_id date
        ∈ load_all_metadata (save_embeddings_and_index store index_id date embeddings index processed_documents embedding_model).1
    ∧ load_embeddings_and_index
        (save_embeddings_and_index store index_id date embeddings index processed_documents embedding_model).1
        (Manifest.mk index_id embedding_model index_id date)
        = some (embeddings, index, processed_documents, embedding_model) := by
  refine ⟨rfl, ?_, ?_⟩
  · simp [save_embeddings_and_index, save_metadata, load_all_metadata]
  · simp [save_embeddings_and_index, save_metadata, load_embeddings_and_index, List.lookup]

/-! ## Encoding fallback, claim C9 -/

theorem tryEncodings_none_iff (f : PgnFile) :
    ∀ es, tryEncodings f es = none ↔ ∀ e ∈ es, f.decoded e = none := by
  intro es
  induction es with
  | nil => simp [tryEncodings]
  | cons e es ih =>
    rw [tryEncodings]
    cases hd : f.decoded e with
    | some c => simp [hd]
    | none => simp [hd, ih]

theorem tryEncodings_first (f : PgnFile) :
    ∀ (es : List String) (j : Nat) (e c : String),
      es[j]? = some e → (∀ (i : Nat) (ei : String), i < j → es[i]? = some ei → f.decoded ei = none) →
      f.decoded e = some c → tryEncodings f es = some c := by
  intro es
  induction es with
  | nil => intro j e c h; simp at h
  | cons x xs ih =>
    intro j e c hj hprev hdec
    cases j with
    | zero =>
      simp at hj
      subst hj
      rw [tryEncodings, hdec]
    | succ n =>
      have hx : f.decoded x = none := hprev 0 x (by omega) (by simp)
      rw [tryEncodings, hx]
      exact ih n e c (by simpa using hj)
        (fun i ei hi hei => hprev (i + 1) ei (by omega) (by simpa using hei)) hdec

/-- Claim C9: load_pgn_files tries the configured encodings in the fixed
priority order utf-8, latin-1, iso-8859-1, cp1252, using the first
successful decoding of each file; a file contributes nothing exactly
when every configured encoding fails for it, and the remaining files
are extracted either way. -/
theorem load_pgn_files_encoding_fallback (pg : String → Option ParsedGame)
    (pre post : List PgnFile) (f : PgnFile) :
    (∀ c, tryEncodings f ENCODINGS = some c →
        load_pgn_files pg (pre ++ f :: post)
          = load_pgn_files pg pre ++ processContent pg f.name c ++ load_pgn_files pg post)
    ∧ (tryEncodings f ENCODINGS = none →
        load_pgn_files pg (pre ++ f :: post)
          = load_pgn_files pg pre ++ load_pgn_files pg post)
    ∧ (tryEncodings f ENCODINGS = none ↔ ∀ e ∈ ENCODINGS, f.decoded e = none)
    ∧ (∀ (j : Nat) (e c : String), ENCODINGS[j]? = some e →
        (∀ (i : Nat) (ei : String), i < j → ENCODINGS[i]? = some ei → f.decoded ei = none) →
        f.decoded e = some c → tryEncodings f ENCODINGS = some c) := by
  refine ⟨?_, ?_, tryEncodings_none_iff f ENCODINGS,
    fun j e c => tryEncodings_first f ENCODINGS j e c⟩
  · intro c hc
    simp only [load_pgn_files, List.flatMap_append, List.flatMap_cons, hc]
    simp [List.append_assoc]
  · intro hc
    simp only [load_pgn_files, List.flatMap_append, List.flatMap_cons, hc]
    simp

/-- Witness for claim C9: a file that fails utf-8 and succeeds with
latin-1 is read with latin-1. -/
theorem load_pgn_files_encoding_fallback_witness :
    tryEncodings c9FileA ENCODINGS = some "[Result \"1-0\"]" := by
  refine (load_pgn_files_encoding_fallback (fun _ => none) [] [c9FileB] c9FileA).2.2.2
    1 "latin-1" "[Result \"1-0\"]" (by decide) ?_ (by decide)
  intro i ei hi hei
  have hi0 : i = 0 := by omega
  subst hi0
  have he : ei = "utf-8" := by simpa [ENCODINGS] using hei.symm
  subst he
  decide

/-! ## Search service lemmas -/

theorem lookup_mem {β : Type} (a : String) (b : β) :
    ∀ l : List (String × β), List.lookup a l = some b → (a, b) ∈ l := by
  intro l
  induction l with
  | nil => intro h; simp [List.lookup] at h
  | cons p ps ih =>
    intro h
    rcases p with ⟨k, v⟩
    rw [List.lookup] at h
    cases hb : (a == k) with
    | true =>
      rw [hb] at h
      simp only [Option.some.injEq] at h
      subst h
      have hk : a = k := by simpa using hb
      subst hk
      exact List.mem_cons_self _ _
    | false =>
      rw [hb] at h
      exact List.mem_cons_of_mem _ (ih h)

theorem faissSearch_length (idx : FaissIndex) (q : Vec) (k : Nat) :
    (faissSearch idx q k).length = k := by
  simp only [faissSearch, List.length_append, List.length_replicate, List.length_take]
  omega

theorem faissSearch_sorted (idx : FaissIndex) (q : Vec) (k : Nat)
    (hb : ∀ v ∈ idx.vecs, sqDist q v ≤ padDist) :
    List.Pairwise (fun a b : Int × Int => a.1 ≤ b.1) (faissSearch idx q k) := by
  rw [faissSearch]
  have hsorted : List.Sorted rankLe
      (List.insertionSort rankLe (idx.vecs.enum.map (fun p => (sqDist q p.2, (p.1 : Int))))) :=
    List.sorted_insertionSort rankLe _
  have hfst : List.Pairwise (fun a b : Int × Int => a.1 ≤ b.1)
      (List.insertionSort rankLe (idx.vecs.enum.map (fun p => (sqDist q p.2, (p.1 : Int))))) := by
    refine hsorted.imp ?_
    intro a b hab
    rcases hab with hlt | ⟨heq, _⟩
    · omega
    · omega
  rw [List.pairwise_append]
  refine ⟨hfst.sublist (List.take_sublist _ _), ?_, ?_⟩
  · rw [List.pairwise_replicate]
    right
    exact le_refl _
  · intro a ha b hbmem
    have hmem : a ∈ idx.vecs.enum.map (fun p => (sqDist q p.2, (p.1 : Int))) :=
      (List.perm_insertionSort rankLe _).mem_iff.1
        (List.Sublist.mem ha (List.take_sublist _ _))
    obtain ⟨p, hp, rfl⟩ := List.mem_map.1 hmem
    rcases p with ⟨i, v⟩
    have hv : v ∈ idx.vecs := by
      obtain ⟨hi, hvi⟩ := List.mem_enum hp
      rw [hvi]
      exact List.getElem_mem hi
    rw [List.eq_of_mem_replicate hbmem]
    exact hb v hv

theorem formatResults_ok (env : Env) (docs : List Doc) :
    ∀ (pairs : List (Int × Int)) (rank : Nat) (rs : List (Nat × Int × String)),
      formatResults env docs pairs rank = Except.ok rs →
      rs.length = pairs.length ∧ rs.map (fun r => r.2.1) = pairs.map (fun p => p.1) := by
  intro pairs
  induction pairs with
  | nil =>
    intro rank rs h
    rw [formatResults] at h
    cases h
    simp
  | cons p ps ih =>
    intro rank rs h
    rcases p with ⟨dist, label⟩
    rw [formatResults] at h
    split at h
    · simp at h
    · split at h
      · simp at h
      · split at h
        · simp at h
        · rename_i rs2 hrec
          cases h
          obtain ⟨h1, h2⟩ := ih (rank + 1) rs2 hrec
          exact ⟨by simp [h1], by simp [h2]⟩

/-- Claim C3 (amended): whenever the console search path succeeds,
search_games returns exactly num_results hit entries (hence never more
than requested), sorted by non-decreasing distance; when num_results
exceeds the number of indexed vectors the excess entries are the faiss
padding (sentinel distance, label -1) resolved through Python negative
indexing to the last chunk, rather than the hit list being cut to the
number of available vectors. -/
theorem searchGames_hits_bound_sorted (env : Env) (query : String) (cp : Bool) (k : Nat)
    (did : Option String) (res : List (Nat × Int × String))
    (hres : search_games env query cp k did false = Except.ok (SearchOutcome.console res))
    (hb : ∀ p ∈ env.store.bundles, ∀ v ∈ p.2.index.vecs, ∀ qv mn,
        env.stEmbed mn query = Except.ok qv → sqDist qv v ≤ padDist) :
    res.length = k ∧ List.Chain' (fun a b : Nat × Int × String => a.2.1 ≤ b.2.1) res := by
  rw [search_games] at hres
  split at hres
  · simp at hres
  · split at hres
    · simp at hres
    · rename_i m0 rest hmeta
      split at hres
      · simp at hres
      · rename_i emb index processed_documents model_name hload
        split at hres
        · simp at hres
        · rename_i qe hqe
          split at hres
          · simp at hres
          · rename_i results hfmt
            rw [if_pos (by simp)] at hres
            simp only [Except.ok.injEq, SearchOutcome.console.injEq] at hres
            subst hres
            obtain ⟨hlen, hdist⟩ := formatResults_ok env processed_documents _ 1 results hfmt
            have hsl : results.length = k := by
              rw [hlen, faissSearch_length]
            refine ⟨hsl, ?_⟩
            have hbx : ∀ v ∈ index.vecs, sqDist qe v ≤ padDist := by
              intro v hv
              rw [load_embeddings_and_index] at hload
              cases hlk : List.lookup (resolveManifest m0 rest did).index_id env.store.bundles with
              | none => rw [hlk] at hload; simp at hload
              | some b =>
                rw [hlk] at hload
                simp only [Option.some.injEq] at hload
                obtain ⟨he, hi, hd, hm⟩ := hload
                have hmem := lookup_mem _ _ _ hlk
                exact hb _ hmem v hv qe _ hqe
            have hchain : List.Chain' (fun a b : Int × Int => a.1 ≤ b.1)
                (faissSearch index qe k) :=
              (faissSearch_sorted index qe k hbx).chain'
            have hchain2 : List.Chain' (fun a b : Int => a ≤ b)
                ((faissSearch index qe k).map (fun p => p.1)) := by
              rw [List.chain'_map]
              exact hchain
            rw [← hdist] at hchain2
            rw [List.chain'_map] at hchain2
            exact hchain2

/-- Counterexample to claim C3 as stated: a bundle with a single chunk
queried with num_results = 2 yields two hits, more than the bundle has
chunks, the second being the faiss padding entry resolved to the last
chunk instead of being dropped. -/
theorem searchGames_excess_hits_counterexample :
    search_games c3Env "q" true 2 none false
      = Except.ok (SearchOutcome.console [(1, 0, "only game"), (2, padDist, "only game")])
    ∧ c3Docs.length = 1
    ∧ (2 : Nat) > 1 := by
  refine ⟨by decide, rfl, by decide⟩

/-- Witness for claim C3 at a concrete one-chunk bundle and k = 1. -/
theorem searchGames_hits_bound_sorted_witness :
    search_games c3wEnv "q" true 1 none false = Except.ok (SearchOutcome.console [(1, 0, "g")])
    ∧ ([((1 : Nat), (0 : Int), "g")]).length = 1 := by
  have h : search_games c3wEnv "q" true 1 none false
      = Except.ok (SearchOutcome.console [(1, 0, "g")]) := by decide
  refine ⟨h, ?_⟩
  have hw := searchGames_hits_bound_sorted c3wEnv "q" true 1 none [(1, 0, "g")] h ?_
  · exact hw.1
  · intro p hp v hv qv mn hq
    have hp2 : p = ("id-3w", Bundle.mk [[0]] (FaissIndex.mk [[0]]) [Doc.mk "g" "s"]) := by
      simpa [c3wEnv, c3wStore, save_embeddings_and_index, save_metadata, emptyStore] using hp
    subst hp2
    have hv2 : v = [0] := by simpa using hv
    subst hv2
    have hq2 : qv = [0] := by
      have hq3 : (Except.ok [0] : Except String Vec) = Except.ok qv := hq
      simpa using hq3.symm
    subst hq2
    decide

/-- Claim C1 (code bug): every bundle the build persists records
EMBEDDING_MODEL in its manifest, and search_games does pass exactly the
recorded identifier to its query-time encoder with no ambient override;
but that encoder is the SentenceTransformer capability while the
vectors of the bundle came from the OpenAI embeddings capability, two
different embedding stacks that are free to map the same text under the
same identifier to different vectors.  In this run they do, so querying
the bundle with the exact text of its only chunk yields distance 1
rather than 0: the query vector does not lie in the vector space of the
indexed vectors. -/
theorem searchGames_mismatched_embedding_space :
    create_embeddings c1Env.openaiEmbed c1Docs = Except.ok [[1]]
    ∧ (∀ m ∈ load_all_metadata c1Env.store, m.embedding_model = EMBEDDING_MODEL)
    ∧ c1Env.stEmbed EMBEDDING_MODEL "queen sacrifice" = Except.ok [2]
    ∧ c1Env.openaiEmbed EMBEDDING_MODEL "queen sacrifice" = Except.ok [1]
    ∧ c1Env.stEmbed EMBEDDING_MODEL "queen sacrifice"
        ≠ c1Env.openaiEmbed EMBEDDING_MODEL "queen sacrifice"
    ∧ search_games c1Env "queen sacrifice" true 1 none false
        = Except.ok (SearchOutcome.console [(1, 1, "queen sacrifice")])
    ∧ (1 : Int) ≠ 0 := by decide

/-- Claim C8 (amended): the guard conditions of search_games — missing
credentials with no provided client, an empty store, and a failed
artifact load — each return a descriptive message without raising; but
failures of the query-time embedding, per-game formatting and summary
capabilities are not caught inside search_games and escape it as raised
exceptions (the CLI loop around it catches them; the string-returning
web path does not). -/
theorem searchGames_guard_messages (env : Env) (query : String) (cp : Bool) (k : Nat)
    (did : Option String) (rs : Bool) :
    (¬ cp = true ∧ env.apiKeyEnv.getD "" = "" →
      search_games env query cp k did rs
        = Except.ok (SearchOutcome.message "Error: OPENAI_API_KEY environment variable not set"))
    ∧ ((cp = true ∨ env.apiKeyEnv.getD "" ≠ "") → load_all_metadata env.store = [] →
      search_games env query cp k did rs
        = Except.ok (SearchOutcome.message "No embeddings found. Please run create_index.py first."))
    ∧ (∀ m0 rest, (cp = true ∨ env.apiKeyEnv.getD "" ≠ "") →
      load_all_metadata env.store = m0 :: rest →
      load_embeddings_and_index env.store (resolveManifest m0 rest did) = none →
      search_games env query cp k did rs
        = Except.ok (SearchOutcome.message "Failed to load embeddings. Please check the embeddings directory.")) := by
  refine ⟨?_, ?_, ?_⟩
  · intro h
    rw [search_games, if_pos h]
  · intro h1 h2
    rw [search_games, if_neg (by tauto), h2]
  · intro m0 rest h1 h2 h3
    rw [search_games, if_neg (by tauto), h2]
    simp only [h3]

/-- Counterexample to claim C8 as stated: with a loadable bundle in the
store, a failing query-time embedding call escapes search_games as a
raised exception instead of being surfaced as a message. -/
theorem searchGames_embed_failure_raises :
    search_games c8Env "q" true 5 none true = Except.error "boom" := by decide

/-- Witness for claim C8 at a concrete empty store. -/
theorem searchGames_guard_messages_witness :
    search_games c8wEnv "q" true 5 none true
      = Except.ok (SearchOutcome.message "No embeddings found. Please run create_index.py first.") :=
  (searchGames_guard_messages c8wEnv "q" true 5 none true).2.1 (Or.inl rfl) rfl

/-- Claim C10: a dataset_id matching no stored manifest is silently
ignored: search_games neither fails nor reports the miss, it resolves
the first enumerated manifest exactly as if no dataset_id had been
supplied. -/
theorem searchGames_unknown_dataset_fallback (env : Env) (query : String) (cp : Bool) (k : Nat)
    (rs : Bool) (did : String)
    (h : ∀ m ∈ load_all_metadata env.store, m.dataset_id ≠ did) :
    search_games env query cp k (some did) rs = search_games env query cp k none rs := by
  rw [search_games, search_games]
  by_cases hcl : ¬ cp = true ∧ env.apiKeyEnv.getD "" = ""
  · rw [if_pos hcl, if_pos hcl]
  · rw [if_neg hcl, if_neg hcl]
    cases hmeta : load_all_metadata env.store with
    | nil => rfl
    | cons m0 rest =>
      have hr : resolveManifest m0 rest (some did) = resolveManifest m0 rest none := by
        rw [resolveManifest, resolveManifest]
        have h1 : (m0 :: rest).find? (fun m => some did == some m.dataset_id) = none := by
          apply List.find?_eq_none.2
          intro m hm
          have hne := h m (by rw [hmeta]; exact hm)
          simp [hne.symm]
        have h2 : (m0 :: rest).find? (fun m => (none : Option String) == some m.dataset_id) = none := by
          apply List.find?_eq_none.2
          intro m hm
          simp
        rw [h1, h2]
      simp only [hr]

/-- Witness for claim C10 at a concrete store holding one manifest with
a different dataset_id. -/
theorem searchGames_unknown_dataset_fallback_witness :
    search_games c10Env "q" true 1 (some "missing-id") false
      = search_games c10Env "q" true 1 none false := by
  apply searchGames_unknown_dataset_fallback
  intro m hm
  have hm2 : m = Manifest.mk "id-10" EMBEDDING_MODEL "id-10" "2024-01-01" := by
    simpa [c10Env, c10Store, save_embeddings_and_index, save_metadata, emptyStore,
      load_all_metadata] using hm
  rw [hm2]
  decide
